import Mathlib

/-!
Verification of the date-window aggregation and due-report scheduling engine
of the Pillar daily-ratings tracker.

The two ratings scripts (`ratings.js`, referred to below as part_000, and the
daily-ratings tracker script, part_001) are shallowly embedded here:

* JavaScript `Date` objects (used by the scripts only at calendar-day
  precision, in local time) are modelled by the `CDate` structure
  (year / 1-based month / day) together with the ECMAScript day-level
  semantics of the operations the scripts use: `getDay`, `setDate`,
  `new Date(y, m, d)` normalisation, and day stepping.  `dayNumber` assigns
  each calendar date its day count since 1970-01-01 (the epoch), which is
  what `getTime`-based comparisons observe.
* JavaScript numbers are modelled by `ℚ` (every arithmetic operation any
  claim evaluates is exact in binary64, so the rational model agrees with
  the float semantics on those inputs); `JsVal` models the values that can
  sit in a stored day record (finite numbers, non-finite numbers, null,
  undefined, strings).
* JavaScript objects used as dictionaries are modelled by association lists
  (`olookup` / `oset`), preserving insertion-order semantics of key
  assignment.
* `localStorage` contents are modelled by the parsed stores themselves
  (`Store`, `Ledger`); reads and writes of the scripts become explicit
  arguments and results.
-/

/-- The Gregorian leap-year rule.  (Platform model: the `Date` object's
calendar is the proleptic Gregorian calendar.) -/
def isLeap (y : Int) : Bool :=
  y % 4 == 0 && (!(y % 100 == 0) || y % 400 == 0)

/-- Number of days in month `m` (1-based) of year `y`. -/
def daysInMonth (y : Int) (m : Nat) : Nat :=
  if m = 2 then (if isLeap y then 29 else 28)
  else if m = 4 ∨ m = 6 ∨ m = 9 ∨ m = 11 then 30
  else 31

/-- A local calendar date, as carried by a JS `Date` at day precision:
`year` is `getFullYear()`, `month` is `getMonth() + 1` (so 1..12),
`day` is `getDate()`. -/
structure CDate where
  year : Int
  month : Nat
  day : Nat
deriving DecidableEq, Repr

/-- The dates that actually arise from JS `Date` objects: month 1..12,
day 1..(days in that month). -/
def CDate.Valid (x : CDate) : Prop :=
  1 ≤ x.month ∧ x.month ≤ 12 ∧ 1 ≤ x.day ∧ x.day ≤ daysInMonth x.year x.month

instance (x : CDate) : Decidable x.Valid := by
  unfold CDate.Valid; infer_instance

/-- The next calendar day. -/
def succD (x : CDate) : CDate :=
  if x.day < daysInMonth x.year x.month then ⟨x.year, x.month, x.day + 1⟩
  else if x.month < 12 then ⟨x.year, x.month + 1, 1⟩
  else ⟨x.year + 1, 1, 1⟩

/-- The previous calendar day. -/
def predD (x : CDate) : CDate :=
  if 1 < x.day then ⟨x.year, x.month, x.day - 1⟩
  else if 1 < x.month then ⟨x.year, x.month - 1, daysInMonth x.year (x.month - 1)⟩
  else ⟨x.year - 1, 12, 31⟩

/-- Shifting a date by `n` days (the effect of JS date arithmetic such as
`setDate(getDate() + n)`). -/
def addDays (x : CDate) (n : Int) : CDate :=
  if 0 ≤ n then succD^[n.toNat] x else predD^[(-n).toNat] x

/-- Day count from the start of the 400-year era containing shifted year `y`
up to the start of shifted year `y`, plus whole eras (Hinnant's civil
calendar arithmetic; all divisors are positive so `/` and `%` are the
floor/Euclidean operations). -/
def eraDays (y : Int) : Int :=
  (y / 400) * 146097 + (y % 400) * 365 + (y % 400) / 4 - (y % 400) / 100

/-- Day of the (March-based) shifted year on which month `m` (1-based civil)
starts: March ↦ 0, April ↦ 31, ..., February ↦ 337. -/
def mpDoy (m : Nat) : Int :=
  (153 * (((m : Int) + 9) % 12) + 2) / 5

/-- Days since the epoch 1970-01-01 (day 0).  This is the value that
`getTime()` exposes (scaled by 86 400 000 ms) and that weekday computation
is based on. -/
def dayNumber (x : CDate) : Int :=
  eraDays (if x.month ≤ 2 then x.year - 1 else x.year)
    + mpDoy x.month + ((x.day : Int) - 1) - 719468

/-- JS `Date.prototype.getDay()`: 0 = Sunday .. 6 = Saturday.
1970-01-01 (day number 0) was a Thursday. -/
def getDay (x : CDate) : Int :=
  (dayNumber x + 4) % 7

/-- JS `Date.prototype.getMonth()`: 0-based month index. -/
def getMonth (x : CDate) : Int :=
  (x.month : Int) - 1

/-- JS `new Date(y, m, d)` at day precision (ECMAScript `MakeDay`):
the month index `m` is normalised into year `y + ⌊m / 12⌋`, month
`m mod 12`, and then `d - 1` days are added to the first of that month
(so `d = 0` is the last day of the preceding month, etc.). -/
def jsDate (y m d : Int) : CDate :=
  addDays ⟨y + m / 12, (m % 12).toNat + 1, 1⟩ (d - 1)

/-- JS `setDate(v)` on a date `x`: normalises to `v - x.day` days away
from `x` (ECMAScript: `MakeDay` of the current year/month with day `v`). -/
def setDateJs (x : CDate) (v : Int) : CDate :=
  addDays x (v - (x.day : Int))

example : dayNumber ⟨1970, 1, 1⟩ = 0 := by decide
example : getDay ⟨2023, 12, 31⟩ = 0 := by decide
example : getDay ⟨2024, 1, 1⟩ = 1 := by decide

/-!  ## JS values and object / storage model  -/

/-- A JavaScript value as it can appear inside a stored day record.
`num q` is a finite number (modelled exactly by a rational); `nan` stands
for the non-finite numbers (`NaN`, `±Infinity`), which have
`typeof = "number"` but fail every `≤`-comparison and `Number.isFinite`. -/
inductive JsVal where
  | num (q : ℚ)
  | nan
  | null
  | undefined
  | str (s : String)
deriving DecidableEq, Repr

/-- A JS object used as a string-keyed dictionary: an insertion-ordered
association list. -/
abbrev Obj := List (String × JsVal)

/-- Property lookup `o[k]` (as an `Option`; `none` is `undefined`). -/
def olookup {α : Type} (l : List (String × α)) (k : String) : Option α :=
  match l with
  | [] => none
  | (k2, v) :: t => if k2 == k then some v else olookup t k

/-- Property assignment `o[k] = v`: an existing key keeps its position,
a new key is appended (JS insertion-order semantics). -/
def oset {α : Type} (l : List (String × α)) (k : String) (v : α) : List (String × α) :=
  match l with
  | [] => [(k, v)]
  | (k2, v2) :: t => if k2 == k then (k, v) :: t else (k2, v2) :: oset t k v

/-- Property access `o[k]` with JS semantics: a missing key reads as
`undefined`. -/
def jsIndex (o : Obj) (k : String) : JsVal :=
  (olookup o k).getD .undefined

/-- `Number(v)` restricted to the values of `JsVal`, returning `none` for a
non-finite result: `Number(null) = 0`, `Number(undefined) = NaN`; a string
of pure decimal digits converts to its value, the non-numeric strings that
occur here (ISO timestamps) convert to `NaN`. -/
def jsNumber : JsVal → Option ℚ
  | .num q => some q
  | .nan => none
  | .null => some 0
  | .undefined => none
  | .str s =>
      if s ≠ "" ∧ s.data.all Char.isDigit then some ((s.toNat!) : ℚ) else none

/-- JS `Math.round`: rounds half toward positive infinity. -/
def jsRound (q : ℚ) : Int := ⌊q + 1/2⌋

/-- The parsed contents of the daily-ratings key in `localStorage`
(both scripts use the same shape at this level: ISO date string ↦ day
record). -/
abbrev Store := List (String × Obj)

/-- The parsed contents of the sent-reports key: period type ↦
(period id ↦ ISO timestamp string). -/
abbrev Ledger := List (String × List (String × String))

/-- One rating-category configuration entry (`CATEGORIES` in the scripts).
The scripts are evaluated parametrically in this list; the deployed value
is `CATEGORIES` below. -/
structure Category where
  key : String
  label : String
deriving DecidableEq, Repr

/-- The deployed category configuration of both scripts. -/
def CATEGORIES : List Category :=
  [⟨"consistency", "Consistency"⟩, ⟨"discipline", "Discipline"⟩,
   ⟨"determination", "Determination"⟩, ⟨"interest", "Interest"⟩]

/-!  ## part_000 (`ratings.js`): utilities  -/

/-- `pad2(n)`: two-digit zero padding. -/
def pad2 (n : Nat) : String :=
  (if n < 10 then "0" else "") ++ toString n

/-- `isoLocal(d)` of part_000 (and the identical `toISODate(d)` of
part_001): local `YYYY-MM-DD`. -/
def isoLocal (d : CDate) : String :=
  toString d.year ++ "-" ++ pad2 d.month ++ "-" ++ pad2 d.day

/-- `isSunday(d)`. -/
def isSunday (d : CDate) : Bool := getDay d == 0

/-- `lastDayOfMonth(d)`: `new Date(y, m + 1, 0).getDate()`, with `m` the
0-based month index, i.e. `m + 1 = d.month`. -/
def lastDayOfMonth (d : CDate) : Nat :=
  (jsDate d.year (getMonth d + 1) 0).day

/-- `isMonthEnd(d)` (same code in part_000 and part_001). -/
def isMonthEnd (d : CDate) : Bool :=
  d.day == lastDayOfMonth d

/-- `isYearEnd(d)`: December 31. -/
def isYearEnd (d : CDate) : Bool :=
  getMonth d == 11 && d.day == 31

/-- `weekStartMonday(d)`: `start.setDate(start.getDate() - (day + 6) % 7)`
on a copy of `d`, where `day = d.getDay()`. -/
def weekStartMonday (d : CDate) : CDate :=
  setDateJs d ((d.day : Int) - ((getDay d + 6) % 7))

/-- `monthStart(d)`: `new Date(y, m, 1)`. -/
def monthStart (d : CDate) : CDate := jsDate d.year (getMonth d) 1

/-- `monthEnd(d)`: `new Date(y, m + 1, 0)`. -/
def monthEnd (d : CDate) : CDate := jsDate d.year (getMonth d + 1) 0

/-- `yearStart(d)`: `new Date(y, 0, 1)`. -/
def yearStart (d : CDate) : CDate := jsDate d.year 0 1

/-- `yearEnd(d)`: `new Date(y, 11, 31)`. -/
def yearEnd (d : CDate) : CDate := jsDate d.year 11 31

/-- `alreadySent(type, periodId)`: truthiness of
`sent[type] && sent[type][periodId]` over the parsed ledger (the empty
string is the only falsy stored string). -/
def alreadySent (sent : Ledger) (ty pid : String) : Bool :=
  match olookup sent ty with
  | none => false
  | some inner =>
      match olookup inner pid with
      | none => false
      | some s => !(s == "")

/-- `markSent(type, periodId)`; the ISO timestamp written
(`new Date().toISOString()`) is passed in as `ts`. -/
def markSent (sent : Ledger) (ty pid ts : String) : Ledger :=
  oset sent ty (oset ((olookup sent ty).getD []) pid ts)

/-- `saveRatingForToday(categoryKey, value)`: the current store, today's ISO
date and the `_updatedAt` timestamp are explicit arguments. -/
def saveRatingForToday (store : Store) (todayISO ts : String)
    (categoryKey : String) (value : JsVal) : Store :=
  let dayObj := (olookup store todayISO).getD []
  oset store todayISO (oset (oset dayObj categoryKey value) "_updatedAt" (.str ts))

example : pad2 7 = "07" := by decide
example : isoLocal ⟨2024, 2, 29⟩ = "2024-02-29" := by decide

/-!  ## part_000: range read, aggregation, report construction  -/

/-- One row produced by `getRatingsInRange`. -/
structure RRow where
  date : String
  values : Obj
deriving DecidableEq, Repr

/-- The consecutive dates `s, s+1, ..., s+(n-1)`. -/
def dateListFrom (s : CDate) : Nat → List CDate
  | 0 => []
  | n + 1 => s :: dateListFrom (succD s) n

/-- `getRatingsInRange(startDate, endDate)`: the while-loop
`while (cur <= end) { push {date, store[date] or empty}; cur++ }` runs once
per calendar day of the inclusive range (`getTime` order is `dayNumber`
order), i.e. `max 0 (end - start + 1)` times. -/
def getRatingsInRange (store : Store) (startDate endDate : CDate) : List RRow :=
  (dateListFrom startDate (dayNumber endDate - dayNumber startDate + 1).toNat).map
    (fun d => ⟨isoLocal d, (olookup store (isoLocal d)).getD []⟩)

/-- The per-value validity test of `calcAverages`:
`typeof v === "number" && v >= 1 && v <= 5` (a missing key reads as
`undefined`; `NaN` has number type but fails the comparisons). -/
def scoreOk : Option JsVal → Bool
  | some (.num q) => decide (1 ≤ q) && decide (q ≤ 5)
  | some .nan => false
  | _ => false

/-- `counts[c.key]` after the `calcAverages` loops: the number of rows
whose value for `c` passes `scoreOk`. -/
def catCount (rows : List RRow) (key : String) : Nat :=
  (rows.filter (fun r => scoreOk (olookup r.values key))).length

/-- `sums[c.key]` after the `calcAverages` loops. -/
def catSum (rows : List RRow) (key : String) : ℚ :=
  rows.foldl
    (fun acc r =>
      match olookup r.values key with
      | some (JsVal.num q) => if 1 ≤ q ∧ q ≤ 5 then acc + q else acc
      | _ => acc)
    0

/-- Result record of `calcAverages`. -/
structure CalcStats where
  avg : List (String × Option ℚ)
  counts : List (String × Nat)
deriving DecidableEq, Repr

/-- `calcAverages(rows)`: per category (independently), the mean of the
valid scores, `null` when the category has no valid score at all. -/
def calcAverages (cats : List Category) (rows : List RRow) : CalcStats :=
  ⟨cats.map (fun c =>
      (c.key, if catCount rows c.key ≠ 0
              then some (catSum rows c.key / (catCount rows c.key : ℚ))
              else none)),
   cats.map (fun c => (c.key, catCount rows c.key))⟩

/-- `String.prototype.padEnd(width, " ")`. -/
def padEndStr (s : String) (width : Nat) : String :=
  s ++ String.mk (List.replicate (width - s.length) ' ')

/-- `Number.prototype.toFixed(2)` for the non-negative finite values that
reach it (category averages lie in `[1, 5]`). -/
def toFixed2 (q : ℚ) : String :=
  let c : Int := ⌊q * 100 + 1/2⌋
  toString (c / 100) ++ "." ++ pad2 (c % 100).toNat

/-- `buildPlainTextReport(title, startDate, endDate)` of part_000 (reads the
store, aggregates with `calcAverages`, renders averages and the daily
table). -/
def buildPlainTextReport (cats : List Category) (store : Store)
    (title : String) (startDate endDate : CDate) : String :=
  let rows := getRatingsInRange store startDate endDate
  let stats := calcAverages cats rows
  let avgLines := cats.map (fun c =>
    "- " ++ c.label ++ ": "
      ++ (match olookup stats.avg c.key with
          | some (some a) => toFixed2 a
          | _ => "N/A")
      ++ " (days rated: "
      ++ (match olookup stats.counts c.key with
          | some n => toString n
          | none => "0")
      ++ ")")
  let header := "Date       | "
    ++ String.intercalate " | " (cats.map (fun c => padEndStr c.label 13))
  let sep := "-----------|-"
    ++ String.intercalate "-|-" (cats.map (fun _ => "-------------"))
  let tableLines := rows.map (fun r =>
    r.date ++ " | "
      ++ String.intercalate " | " (cats.map (fun c =>
          padEndStr (match olookup r.values c.key with
                     | some (JsVal.num q) =>
                         if q.den = 1 then toString q.num else toString q
                     | some JsVal.nan => "-"
                     | _ => "-") 13)))
  String.intercalate "\n"
    ([title, "Period: " ++ isoLocal startDate ++ " to " ++ isoLocal endDate, "",
      "Averages (1-5):"]
      ++ avgLines ++ [""]
      ++ ["Daily entries:", header, sep]
      ++ tableLines
      ++ ["", "Generated from your Rezume portfolio ratings page."])

/-!  ## part_000: report scheduling  -/

/-- A report candidate `{type, periodId, subject, body}`. -/
structure Report where
  type : String
  periodId : String
  subject : String
  body : String
deriving DecidableEq, Repr

/-- `buildWeeklyReport(now)`. -/
def buildWeeklyReport (cats : List Category) (store : Store) (now : CDate) : Report :=
  let e := now
  let s := weekStartMonday e
  { type := "weekly"
    periodId := isoLocal s ++ "_" ++ isoLocal e
    subject := "Weekly Work Ratings (" ++ isoLocal s ++ " to " ++ isoLocal e ++ ")"
    body := buildPlainTextReport cats store "WEEKLY WORK RATINGS REPORT" s e }

/-- `buildMonthlyReport(now)`; `periodId = isoLocal(start).slice(0, 7)`. -/
def buildMonthlyReport (cats : List Category) (store : Store) (now : CDate) : Report :=
  let s := monthStart now
  let e := monthEnd now
  let pid := (isoLocal s).take 7
  { type := "monthly"
    periodId := pid
    subject := "Monthly Work Ratings (" ++ pid ++ ")"
    body := buildPlainTextReport cats store "MONTHLY WORK RATINGS REPORT" s e }

/-- `buildYearlyReport(now)`. -/
def buildYearlyReport (cats : List Category) (store : Store) (now : CDate) : Report :=
  let s := yearStart now
  let e := yearEnd now
  let pid := toString now.year
  { type := "yearly"
    periodId := pid
    subject := "Yearly Work Ratings (" ++ pid ++ ")"
    body := buildPlainTextReport cats store "YEARLY WORK RATINGS REPORT" s e }

/-- `getDueReports(now)`: the due candidates in the order weekly, monthly,
yearly, minus those already in the sent ledger. -/
def getDueReports (cats : List Category) (store : Store) (sent : Ledger)
    (now : CDate) : List Report :=
  ((if isSunday now then [buildWeeklyReport cats store now] else [])
    ++ (if isMonthEnd now then [buildMonthlyReport cats store now] else [])
    ++ (if isYearEnd now then [buildYearlyReport cats store now] else [])).filter
    (fun r => !alreadySent sent r.type r.periodId)

/-- The two relevant `localStorage` keys of part_000, parsed. -/
structure LS where
  ratings : Store
  sent : Ledger
deriving DecidableEq, Repr

/-- `getDueReports` as a state transformer over `localStorage`: it only
performs reads (`readJson`), so the state component is returned unchanged. -/
def getDueReportsLS (cats : List Category) (now : CDate) (σ : LS) :
    LS × List Report :=
  (σ, getDueReports cats σ.ratings σ.sent now)

/-!  ## part_000: sending (`sendReport`)  -/

/-- An externally visible transport action of `sendReport`. -/
inductive SendAction where
  | apiPost (recips : List String) (subject body : String)
  | openMailto (recips : List String) (subject body : String)
deriving DecidableEq, Repr

/-- Outcome of one `sendReport(report)` call: the ledger afterwards, the
settled promise value, and the transport actions performed. -/
structure SendOutcome where
  ledger : Ledger
  result : Except String Unit
  actions : List SendAction
deriving Repr

/-- `sendReport(report)`.  `CONFIG.mailMode` and `CONFIG.recipients` are the
first arguments; `transport` is the settlement of the `sendViaApi` fetch
chain (`.ok` for a 2xx response, `.error` for a network error or non-2xx
status); `ts` is the timestamp `markSent` stores.  In `"api"` mode
`markSent` runs inside `.then(...)`, hence only on transport success and
a rejection propagates to the caller; in mailto mode the compose action is
opened and `markSent` runs unconditionally right after. -/
def sendReportJs (mailMode : String) (recipients : List String)
    (transport : Except String Unit) (ts : String) (sent : Ledger)
    (r : Report) : SendOutcome :=
  if mailMode == "api" then
    match transport with
    | .ok _ => ⟨markSent sent r.type r.periodId ts, .ok (),
                [.apiPost recipients r.subject r.body]⟩
    | .error e => ⟨sent, .error e, [.apiPost recipients r.subject r.body]⟩
  else
    ⟨markSent sent r.type r.periodId ts, .ok (),
     [.openMailto recipients r.subject r.body]⟩

/-!  ## part_001 (daily ratings tracker)  -/

/-- `clampRating(n)`: `Number`-convert, reject the non-finite, round, and
reject results outside `1..5`. -/
def clampRating (v : JsVal) : Option Int :=
  match jsNumber v with
  | none => none
  | some q =>
      let n := jsRound q
      if n < 1 ∨ 5 < n then none else some n

/-- `mean(numbers)`: averages the entries whose `Number`-conversion is
finite (note `Number(null) = 0` is finite), `null` when none is. -/
def mean (numbers : List JsVal) : Option ℚ :=
  let vals := numbers.filterMap jsNumber
  if vals.length ≠ 0 then some (vals.sum / (vals.length : ℚ)) else none

/-- `computeDailyAverage(ratingsObj)`: the mean over the category keys. -/
def computeDailyAverage (cats : List Category) (ratingsObj : Obj) : Option ℚ :=
  mean (cats.map (fun c => jsIndex ratingsObj c.key))

/-- `getWeekRangeEndingOn(d)`: Monday-based week start
(`start.setDate(d.getDate() - dayIndexMonday0)`), end six days later. -/
def getWeekRangeEndingOn (d : CDate) : CDate × CDate :=
  let dayIndexMonday0 := (getDay d + 6) % 7
  let s := setDateJs d ((d.day : Int) - dayIndexMonday0)
  let e := setDateJs s ((s.day : Int) + 6)
  (s, e)

/-- `getMonthRange(d)`. -/
def getMonthRange (d : CDate) : CDate × CDate :=
  (jsDate d.year (getMonth d) 1, jsDate d.year (getMonth d + 1) 0)

/-- `getYearRange(d)`. -/
def getYearRange (d : CDate) : CDate × CDate :=
  (jsDate d.year 0 1, jsDate d.year 11 31)

/-- One row of `listEntriesInRange`. -/
structure ERow where
  date : String
  data : Obj
deriving DecidableEq, Repr

/-- Lexicographic code-unit comparison on character lists (JS string `<`;
the ISO strings here are ASCII, where code units and code points agree). -/
def strLtb : List Char → List Char → Bool
  | [], [] => false
  | [], _ :: _ => true
  | _ :: _, [] => false
  | a :: as, b :: bs =>
      if a.toNat < b.toNat then true
      else if b.toNat < a.toNat then false
      else strLtb as bs

/-- JS string `<=`. -/
def jsStrLe (a b : String) : Bool := a == b || strLtb a.data b.data

/-- Stable insertion into an ascending list (rows with equal keys keep
their relative order), modelling `Array.prototype.sort`'s stable ascending
result under the `localeCompare` comparator. -/
def insertAsc (le : ERow → ERow → Bool) (acc : List ERow) (x : ERow) : List ERow :=
  match acc with
  | [] => [x]
  | y :: t => if le y x then y :: insertAsc le t x else x :: y :: t

/-- `rows.sort((a, b) => a.date.localeCompare(b.date))`. -/
def sortRowsByDate (rows : List ERow) : List ERow :=
  rows.foldl (insertAsc (fun a b => jsStrLe a.date b.date)) []

/-- `listEntriesInRange(store, startDate, endDate)`: the *stored* entries
whose ISO key lies in `[startISO, endISO]` (string comparison), sorted
ascending by date.  Dates of the range with no stored entry produce no
row. -/
def listEntriesInRange (entries : Store) (startDate endDate : CDate) : List ERow :=
  let startISO := isoLocal startDate
  let endISO := isoLocal endDate
  sortRowsByDate
    ((entries.filter (fun p => jsStrLe startISO p.1 && jsStrLe p.1 endISO)).map
      (fun p => ⟨p.1, p.2⟩))

/-- Result record of `computeAveragesForEntries`. -/
structure AvgResult where
  daysCount : Nat
  perCategory : List (String × Option ℚ)
  overall : Option ℚ
deriving DecidableEq, Repr

/-- The complete-day test of `computeAveragesForEntries`: every configured
category's value survives `clampRating`. -/
def dayComplete (cats : List Category) (data : Obj) : Bool :=
  cats.all (fun c => (clampRating (jsIndex data c.key)).isSome)

/-- `sums[key]` of `computeAveragesForEntries`: over the complete days, the
*raw* `Number(data[key])` is accumulated (complete days have a finite
conversion for every category, so the `getD` default is never taken). -/
def entSum (cats : List Category) (rows : List ERow) (key : String) : ℚ :=
  (rows.filter (fun r => dayComplete cats r.data)).foldl
    (fun acc r => acc + (jsNumber (jsIndex r.data key)).getD 0) 0

/-- `null`-or-number, as it appears among `Object.keys(avgs).map(...)`. -/
def optToJs : Option ℚ → JsVal
  | some q => .num q
  | none => .null

/-- `computeAveragesForEntries(entryRows)`: only days with all categories
valid count; per-category averages are `null` when no day is complete; the
overall value is `mean` over the per-category averages (with `null`
entries `Number`-coerced). -/
def computeAveragesForEntries (cats : List Category) (rows : List ERow) : AvgResult :=
  let count := (rows.filter (fun r => dayComplete cats r.data)).length
  let avgs := cats.map (fun c =>
    (c.key, if count ≠ 0 then some (entSum cats rows c.key / (count : ℚ)) else none))
  { daysCount := count
    perCategory := avgs
    overall := mean (avgs.map (fun p => optToJs p.2)) }

/-!  ## Helpers for stating invalid-score invariance  -/

/-- The raw-value form of `scoreOk`: is `v` a number-typed value inside
`[1, 5]`?  (`scoreOk (some v) = validScoreVal v`.) -/
def validScoreVal : JsVal → Bool
  | .num q => decide (1 ≤ q) && decide (q ≤ 5)
  | _ => false

/-- The score `calcAverages` effectively reads for one category of one row:
`some q` when the stored value is a number in `[1, 5]`, `none` otherwise. -/
def gatedScore (o : Obj) (k : String) : Option ℚ :=
  match olookup o k with
  | some (JsVal.num q) => if 1 ≤ q ∧ q ≤ 5 then some q else none
  | _ => none

/-- Dropping every invalid stored score from a row, as if it were absent. -/
def sanitizeRow (r : RRow) : RRow :=
  ⟨r.date, r.values.filter (fun p => validScoreVal p.2)⟩

/-!  ## Calendar lemmas  -/

theorem isLeap_iff (y : Int) :
    isLeap y = true ↔ (y % 4 = 0 ∧ (y % 100 ≠ 0 ∨ y % 400 = 0)) := by
  simp [isLeap, Bool.and_eq_true, Bool.or_eq_true, beq_iff_eq, Bool.not_eq_eq_eq_not]

theorem daysInMonth_pos (y : Int) (m : Nat) : 1 ≤ daysInMonth y m := by
  unfold daysInMonth
  split
  · split <;> omega
  · split <;> omega

theorem daysInMonth_le (y : Int) (m : Nat) : daysInMonth y m ≤ 31 := by
  unfold daysInMonth
  split
  · split <;> omega
  · split <;> omega

theorem daysInMonth_twelve (y : Int) : daysInMonth y 12 = 31 := by
  unfold daysInMonth
  norm_num

theorem valid_succD {x : CDate} (h : x.Valid) : (succD x).Valid := by
  obtain ⟨yy, mm, dd⟩ := x
  obtain ⟨h1, h2, h3, h4⟩ := h
  have p1 := daysInMonth_pos yy (mm + 1)
  have p2 := daysInMonth_pos (yy + 1) 1
  unfold succD CDate.Valid at *
  dsimp only at *
  split
  · dsimp only; omega
  · split
    · dsimp only; omega
    · dsimp only; omega

theorem valid_predD {x : CDate} (h : x.Valid) : (predD x).Valid := by
  obtain ⟨yy, mm, dd⟩ := x
  obtain ⟨h1, h2, h3, h4⟩ := h
  have p1 := daysInMonth_pos yy (mm - 1)
  have p2 := daysInMonth_twelve (yy - 1)
  unfold predD CDate.Valid at *
  dsimp only at *
  split
  · dsimp only; omega
  · split
    · dsimp only; omega
    · dsimp only; omega

theorem succD_predD {x : CDate} (h : x.Valid) : succD (predD x) = x := by
  obtain ⟨yy, mm, dd⟩ := x
  obtain ⟨h1, h2, h3, h4⟩ := h
  have p2 := daysInMonth_twelve (yy - 1)
  have p3 := daysInMonth_pos yy (mm - 1)
  unfold predD
  dsimp only at *
  split
  · unfold succD
    dsimp only
    split
    · simp only [CDate.mk.injEq, true_and, and_true]; omega
    · exfalso; omega
  · split
    · unfold succD
      dsimp only
      split
      · exfalso; omega
      · split
        · simp only [CDate.mk.injEq, true_and, and_true]; omega
        · exfalso; omega
    · unfold succD
      dsimp only
      split
      · exfalso; omega
      · split
        · exfalso; omega
        · simp only [CDate.mk.injEq, true_and, and_true]; omega

theorem dayNumber_succD {x : CDate} (h : x.Valid) :
    dayNumber (succD x) = dayNumber x + 1 := by
  obtain ⟨yy, mm, dd⟩ := x
  obtain ⟨h1, h2, h3, h4⟩ := h
  unfold succD
  dsimp only at *
  split
  · unfold dayNumber
    dsimp only
    split <;> push_cast <;> ring
  · split
    · rename_i hlt
      have hdd : dd = daysInMonth yy mm := by omega
      subst hdd
      interval_cases mm
      · unfold dayNumber eraDays mpDoy daysInMonth
        norm_num
        try omega
      · cases hL : isLeap yy
        · have har : ¬(yy % 4 = 0 ∧ (yy % 100 ≠ 0 ∨ yy % 400 = 0)) := by
            rw [← isLeap_iff, hL]
            simp
          unfold dayNumber eraDays mpDoy daysInMonth
          simp only [hL]
          norm_num
          try omega
        · have har : yy % 4 = 0 ∧ (yy % 100 ≠ 0 ∨ yy % 400 = 0) := by
            rw [← isLeap_iff]
            exact hL
          unfold dayNumber eraDays mpDoy daysInMonth
          simp only [hL]
          norm_num
          try omega
      · unfold dayNumber eraDays mpDoy daysInMonth
        norm_num
        try omega
      · unfold dayNumber eraDays mpDoy daysInMonth
        norm_num
        try omega
      · unfold dayNumber eraDays mpDoy daysInMonth
        norm_num
        try omega
      · unfold dayNumber eraDays mpDoy daysInMonth
        norm_num
        try omega
      · unfold dayNumber eraDays mpDoy daysInMonth
        norm_num
        try omega
      · unfold dayNumber eraDays mpDoy daysInMonth
        norm_num
        try omega
      · unfold dayNumber eraDays mpDoy daysInMonth
        norm_num
        try omega
      · unfold dayNumber eraDays mpDoy daysInMonth
        norm_num
        try omega
      · unfold dayNumber eraDays mpDoy daysInMonth
        norm_num
        try omega
    · rename_i hn1 hn2
      have hmm : mm = 12 := by omega
      subst hmm
      have h31 : daysInMonth yy 12 = 31 := by
        unfold daysInMonth
        norm_num
      have hdd : dd = 31 := by omega
      subst hdd
      unfold dayNumber eraDays mpDoy
      norm_num
      try omega

theorem dayNumber_predD {x : CDate} (h : x.Valid) :
    dayNumber (predD x) = dayNumber x - 1 := by
  have hv := valid_predD h
  have := dayNumber_succD hv
  rw [succD_predD h] at this
  omega

theorem valid_succD_iter {x : CDate} (h : x.Valid) (n : Nat) :
    (succD^[n] x).Valid := by
  induction n generalizing x with
  | zero => simpa using h
  | succ k ih =>
      rw [Function.iterate_succ_apply]
      exact ih (valid_succD h)

theorem dayNumber_succD_iter {x : CDate} (h : x.Valid) (n : Nat) :
    dayNumber (succD^[n] x) = dayNumber x + n := by
  induction n generalizing x with
  | zero => simp
  | succ k ih =>
      rw [Function.iterate_succ_apply]
      rw [ih (valid_succD h), dayNumber_succD h]
      push_cast
      ring

theorem valid_predD_iter {x : CDate} (h : x.Valid) (n : Nat) :
    (predD^[n] x).Valid := by
  induction n generalizing x with
  | zero => simpa using h
  | succ k ih =>
      rw [Function.iterate_succ_apply]
      exact ih (valid_predD h)

theorem dayNumber_predD_iter {x : CDate} (h : x.Valid) (n : Nat) :
    dayNumber (predD^[n] x) = dayNumber x - n := by
  induction n generalizing x with
  | zero => simp
  | succ k ih =>
      rw [Function.iterate_succ_apply]
      rw [ih (valid_predD h), dayNumber_predD h]
      push_cast
      ring

theorem valid_addDays {x : CDate} (h : x.Valid) (n : Int) :
    (addDays x n).Valid := by
  unfold addDays
  split
  · exact valid_succD_iter h _
  · exact valid_predD_iter h _

theorem dayNumber_addDays {x : CDate} (h : x.Valid) (n : Int) :
    dayNumber (addDays x n) = dayNumber x + n := by
  unfold addDays
  split
  · rw [dayNumber_succD_iter h]
    omega
  · rw [dayNumber_predD_iter h]
    omega

theorem predD_first_of_month {y : Int} {m : Nat} (h2 : 2 ≤ m) (h12 : m ≤ 12) :
    predD ⟨y, m, 1⟩ = ⟨y, m - 1, daysInMonth y (m - 1)⟩ := by
  unfold predD
  dsimp only
  rw [if_neg (show ¬ (1:Nat) < 1 by omega), if_pos (show 1 < m by omega)]

theorem predD_jan (y : Int) : predD ⟨y, 1, 1⟩ = ⟨y - 1, 12, 31⟩ := rfl

theorem lastDayOfMonth_eq {x : CDate} (h : x.Valid) :
    lastDayOfMonth x = daysInMonth x.year x.month := by
  obtain ⟨yy, mm, dd⟩ := x
  obtain ⟨h1, h2, h3, h4⟩ := h
  unfold lastDayOfMonth getMonth jsDate addDays
  dsimp only at *
  rw [if_neg (show ¬ (0:Int) ≤ 0 - 1 by omega)]
  have em : (mm : Int) - 1 + 1 = (mm : Int) := by ring
  rw [em]
  have hn : (-((0:Int) - 1)).toNat = 1 := by norm_num
  rw [hn]
  by_cases hm : mm ≤ 11
  · have d12 : (mm : Int) / 12 = 0 := by omega
    have m12 : (mm : Int) % 12 = (mm : Int) := by omega
    rw [d12, m12, Function.iterate_one]
    have tn : ((mm : Int)).toNat = mm := by omega
    rw [tn]
    rw [show yy + 0 = yy by ring]
    rw [predD_first_of_month (by omega) (by omega)]
    simp
  · have hm12 : mm = 12 := by omega
    subst hm12
    norm_num
    rw [predD_jan]
    dsimp only
    rw [daysInMonth_twelve]

theorem valid_setDateJs {x : CDate} (h : x.Valid) (v : Int) :
    (setDateJs x v).Valid :=
  valid_addDays h _

theorem dayNumber_setDateJs {x : CDate} (h : x.Valid) (v : Int) :
    dayNumber (setDateJs x v) = dayNumber x + (v - (x.day : Int)) :=
  dayNumber_addDays h _

theorem isMonthEnd_iff {x : CDate} (h : x.Valid) :
    isMonthEnd x = true ↔ x.day = daysInMonth x.year x.month := by
  unfold isMonthEnd
  rw [lastDayOfMonth_eq h]
  simp

/-!  ## Association-list (JS object) lemmas  -/

theorem olookup_oset_self {α : Type} (l : List (String × α)) (k : String) (v : α) :
    olookup (oset l k v) k = some v := by
  induction l with
  | nil => simp [oset, olookup]
  | cons p t ih =>
      obtain ⟨k2, v2⟩ := p
      unfold oset
      split
      · simp [olookup]
      · rename_i hk
        unfold olookup
        rw [if_neg hk]
        exact ih

theorem olookup_oset_ne {α : Type} (l : List (String × α)) (k k2 : String) (v : α)
    (h : k2 ≠ k) : olookup (oset l k v) k2 = olookup l k2 := by
  induction l with
  | nil =>
      simp only [oset, olookup]
      rw [if_neg (by simpa using fun he => h he.symm)]
  | cons p t ih =>
      obtain ⟨k3, v3⟩ := p
      unfold oset
      split
      · rename_i hk
        unfold olookup
        rw [if_neg (by simpa using fun he => h he.symm)]
        rw [if_neg (by
          simp only [beq_iff_eq] at hk ⊢
          rw [hk]
          exact fun he => h he.symm)]
      · unfold olookup
        split
        · rfl
        · exact ih

theorem oset_oset_same {α : Type} (l : List (String × α)) (k : String) (v1 v2 : α) :
    oset (oset l k v1) k v2 = oset l k v2 := by
  induction l with
  | nil => simp [oset]
  | cons p t ih =>
      obtain ⟨k3, v3⟩ := p
      by_cases hk : (k3 == k) = true <;> simp [oset, hk, ih]

/-!  ## Ledger lemmas  -/

theorem alreadySent_markSent_self (L : Ledger) (ty pid ts : String) :
    alreadySent (markSent L ty pid ts) ty pid = !(ts == "") := by
  unfold markSent alreadySent
  rw [olookup_oset_self]
  dsimp only
  rw [olookup_oset_self]

theorem alreadySent_markSent_ne (L : Ledger) (ty pid ts ty2 pid2 : String)
    (h : ty2 ≠ ty ∨ pid2 ≠ pid) :
    alreadySent (markSent L ty pid ts) ty2 pid2 = alreadySent L ty2 pid2 := by
  unfold markSent alreadySent
  by_cases hty : ty2 = ty
  · subst hty
    have hpid : pid2 ≠ pid := h.resolve_left (fun hc => hc rfl)
    rw [olookup_oset_self]
    cases hL : olookup L ty2 with
    | none => simp [hL, olookup_oset_ne _ _ _ _ hpid, olookup, oset, Ne.symm hpid]
    | some inner => simp [hL, olookup_oset_ne _ _ _ _ hpid]
  · rw [olookup_oset_ne _ _ _ _ hty]

theorem markSent_markSent (L : Ledger) (ty pid t1 t2 : String) :
    markSent (markSent L ty pid t1) ty pid t2 = markSent L ty pid t2 := by
  unfold markSent
  rw [olookup_oset_self]
  simp only [Option.getD_some]
  rw [oset_oset_same, oset_oset_same]

/-!  ## Date-list lemmas  -/

theorem dateListFrom_length (s : CDate) (n : Nat) :
    (dateListFrom s n).length = n := by
  induction n generalizing s with
  | zero => rfl
  | succ k ih => simp [dateListFrom, ih]

theorem dateListFrom_get (s : CDate) (n i : Nat)
    (hi : i < (dateListFrom s n).length) :
    (dateListFrom s n).get ⟨i, hi⟩ = succD^[i] s := by
  induction n generalizing s i with
  | zero => simp [dateListFrom_length] at hi
  | succ k ih =>
      cases i with
      | zero => rfl
      | succ j =>
          have hj : j < (dateListFrom (succD s) k).length := by
            rw [dateListFrom_length] at hi ⊢
            omega
          have : (dateListFrom s (k + 1)).get ⟨j + 1, hi⟩ =
              (dateListFrom (succD s) k).get ⟨j, hj⟩ := rfl
          rw [this, ih, Function.iterate_succ_apply]

/-!  ## Invalid-score invariance lemmas (for calcAverages)  -/

theorem olookup_filter_none {α : Type} (l : List (String × α)) (p : String × α → Bool)
    (k : String) (h : olookup l k = none) : olookup (l.filter p) k = none := by
  induction l with
  | nil => rfl
  | cons q t ih =>
      obtain ⟨k2, v⟩ := q
      unfold olookup at h
      by_cases hk : (k2 == k) = true
      · rw [if_pos hk] at h
        exact absurd h (by simp)
      · rw [if_neg hk] at h
        simp only [List.filter]
        split
        · unfold olookup
          rw [if_neg hk]
          exact ih h
        · exact ih h

theorem olookup_none_of_not_mem {α : Type} (l : List (String × α)) (k : String)
    (h : ¬ k ∈ l.map Prod.fst) : olookup l k = none := by
  induction l with
  | nil => rfl
  | cons q t ih =>
      obtain ⟨k2, v⟩ := q
      simp only [List.map, List.mem_cons] at h
      push_neg at h
      unfold olookup
      rw [if_neg (by simpa using fun he => h.1 he.symm)]
      exact ih h.2

theorem gatedScore_sanitize (o : Obj) (h : (o.map Prod.fst).Nodup) (k : String) :
    gatedScore (o.filter (fun p => validScoreVal p.2)) k = gatedScore o k := by
  induction o with
  | nil => rfl
  | cons q t ih =>
      obtain ⟨k2, v⟩ := q
      simp only [List.map, List.nodup_cons] at h
      obtain ⟨hnm, hnd⟩ := h
      by_cases hv : validScoreVal v = true
      · simp only [List.filter, hv]
        unfold gatedScore olookup
        by_cases hk : (k2 == k) = true
        · rw [if_pos hk, if_pos hk]
        · rw [if_neg hk, if_neg hk]
          exact ih hnd
      · simp only [List.filter, Bool.not_eq_true] at hv ⊢
        rw [hv]
        by_cases hk : (k2 == k) = true
        · have hkk : k2 = k := by simpa using hk
          subst hkk
          have hnone : olookup t k2 = none := olookup_none_of_not_mem t k2 hnm
          unfold gatedScore
          rw [olookup_filter_none t _ k2 hnone]
          unfold olookup
          rw [if_pos (by simp)]
          cases v with
          | num q =>
              have hnc : ¬ (1 ≤ q ∧ q ≤ 5) := by
                intro hc
                simp [validScoreVal, hc.1, hc.2] at hv
              dsimp only
              rw [if_neg hnc]
          | nan => rfl
          | null => rfl
          | undefined => rfl
          | str s => rfl
        · unfold gatedScore
          conv_rhs => unfold olookup
          rw [if_neg hk]
          exact ih hnd

theorem scoreOk_eq_isSome (o : Obj) (k : String) :
    scoreOk (olookup o k) = (gatedScore o k).isSome := by
  unfold scoreOk gatedScore
  cases holo : olookup o k with
  | none => rfl
  | some v =>
      cases v with
      | num q =>
          by_cases h1 : (1 : ℚ) ≤ q
          · by_cases h2 : q ≤ 5
            · simp [h1, h2]
            · simp [h1, h2]
          · simp [h1]
      | nan => rfl
      | null => rfl
      | undefined => rfl
      | str s => rfl

theorem catCount_sanitize (rows : List RRow) (k : String)
    (h : ∀ r ∈ rows, (r.values.map Prod.fst).Nodup) :
    catCount (rows.map sanitizeRow) k = catCount rows k := by
  induction rows with
  | nil => rfl
  | cons r t ih =>
      have hr := h r (by simp)
      have ht : ∀ x ∈ t, (x.values.map Prod.fst).Nodup :=
        fun x hx => h x (by simp [hx])
      unfold catCount at *
      simp only [List.map, List.filter]
      have hs : scoreOk (olookup (sanitizeRow r).values k) =
          scoreOk (olookup r.values k) := by
        rw [scoreOk_eq_isSome, scoreOk_eq_isSome]
        unfold sanitizeRow
        dsimp only
        rw [gatedScore_sanitize r.values hr k]
      rw [hs]
      split
      · simp only [List.length_cons]
        rw [ih ht]
      · exact ih ht

theorem catSum_step (o : Obj) (k : String) (acc : ℚ) :
    (match olookup o k with
      | some (JsVal.num q) => if 1 ≤ q ∧ q ≤ 5 then acc + q else acc
      | _ => acc) = acc + (gatedScore o k).getD 0 := by
  unfold gatedScore
  cases holo : olookup o k with
  | none => simp
  | some v =>
      cases v with
      | num q =>
          by_cases hq : 1 ≤ q ∧ q ≤ 5
          · simp [hq]
          · simp [hq]
      | nan => simp
      | null => simp
      | undefined => simp
      | str s => simp

theorem catSum_sanitize (rows : List RRow) (k : String)
    (h : ∀ r ∈ rows, (r.values.map Prod.fst).Nodup) :
    catSum (rows.map sanitizeRow) k = catSum rows k := by
  suffices haux : ∀ (acc : ℚ) (l : List RRow), (∀ r ∈ l, (r.values.map Prod.fst).Nodup) →
      (l.map sanitizeRow).foldl
        (fun acc r =>
          match olookup r.values k with
          | some (JsVal.num q) => if 1 ≤ q ∧ q ≤ 5 then acc + q else acc
          | _ => acc) acc =
      l.foldl
        (fun acc r =>
          match olookup r.values k with
          | some (JsVal.num q) => if 1 ≤ q ∧ q ≤ 5 then acc + q else acc
          | _ => acc) acc by
    exact haux 0 rows h
  intro acc l hl
  induction l generalizing acc with
  | nil => rfl
  | cons r t ih =>
      have hr := hl r (by simp)
      have ht : ∀ x ∈ t, (x.values.map Prod.fst).Nodup :=
        fun x hx => hl x (by simp [hx])
      simp only [List.map, List.foldl]
      rw [catSum_step, catSum_step]
      unfold sanitizeRow
      dsimp only
      rw [gatedScore_sanitize r.values hr k]
      exact ih _ ht

theorem calcAverages_sanitize (cats : List Category) (rows : List RRow)
    (h : ∀ r ∈ rows, (r.values.map Prod.fst).Nodup) :
    calcAverages cats (rows.map sanitizeRow) = calcAverages cats rows := by
  unfold calcAverages
  rw [CalcStats.mk.injEq]
  constructor
  · apply List.map_congr_left
    intro c _
    rw [catCount_sanitize rows c.key h, catSum_sanitize rows c.key h]
  · apply List.map_congr_left
    intro c _
    rw [catCount_sanitize rows c.key h]

/-!  ## Claim theorems  -/

/- Batteries marks the rational-arithmetic primitives irreducible, which
blocks `decide`-style evaluation of concrete aggregation results; restore
the default reducibility for them while the concrete claims are settled. -/
section
attribute [local semireducible] Rat.add Rat.mul Rat.inv

/-- C2: `markSent` is idempotent — marking the same `(type, periodId)` twice
leaves the ledger in the state a single call (with the second timestamp)
produces; and `getDueReports` performs no writes: run over the parsed
`localStorage` state it returns the state unchanged, and an immediately
repeated call returns the same candidate list. -/
theorem c2_idempotence :
    (∀ (L : Ledger) (ty pid t1 t2 : String),
        markSent (markSent L ty pid t1) ty pid t2 = markSent L ty pid t2)
    ∧ (∀ (cats : List Category) (now : CDate) (σ : LS),
        (getDueReportsLS cats now σ).1 = σ
          ∧ (getDueReportsLS cats now ((getDueReportsLS cats now σ).1)).2 =
              (getDueReportsLS cats now σ).2) :=
  ⟨markSent_markSent, fun _ _ _ => ⟨rfl, rfl⟩⟩

/-- C3 counterexample: the claim extends the 7-day-span property to the
window pair `(weekStartMonday(now), now)` used by `buildWeeklyReport` for
*any* date, but on Monday 2024-01-01 that window is the single day
2024-01-01 — it spans 1 day, not 7. -/
theorem c3_counterexample :
    getDay ⟨2024, 1, 1⟩ = 1
    ∧ dayNumber ⟨2024, 1, 1⟩ - dayNumber (weekStartMonday ⟨2024, 1, 1⟩) + 1 = 1
    ∧ ¬ dayNumber ⟨2024, 1, 1⟩ - dayNumber (weekStartMonday ⟨2024, 1, 1⟩) + 1 = 7 := by
  refine ⟨by decide, by decide, by decide⟩

/-- C3 (amended): for every valid date `d`, `getWeekRangeEndingOn d`
contains `d`, starts on a Monday and spans exactly 7 days; the pair
`(weekStartMonday d, d)` used by `buildWeeklyReport` contains `d` and
starts on a Monday, but spans `(weekday(d) + 6) mod 7 + 1` days, which
equals 7 exactly when `d` is a Sunday. -/
theorem c3_weekly_window (d : CDate) (h : d.Valid) :
    (dayNumber (getWeekRangeEndingOn d).1 ≤ dayNumber d
      ∧ dayNumber d ≤ dayNumber (getWeekRangeEndingOn d).2)
    ∧ getDay (getWeekRangeEndingOn d).1 = 1
    ∧ dayNumber (getWeekRangeEndingOn d).2 - dayNumber (getWeekRangeEndingOn d).1 + 1 = 7
    ∧ dayNumber (weekStartMonday d) ≤ dayNumber d
    ∧ getDay (weekStartMonday d) = 1
    ∧ dayNumber d - dayNumber (weekStartMonday d) + 1 = (getDay d + 6) % 7 + 1
    ∧ (isSunday d = true ↔ dayNumber d - dayNumber (weekStartMonday d) + 1 = 7) := by
  have hs : (setDateJs d ((d.day : Int) - ((getDay d + 6) % 7))).Valid :=
    valid_setDateJs h _
  have e1 : dayNumber (setDateJs d ((d.day : Int) - ((getDay d + 6) % 7))) =
      dayNumber d - ((getDay d + 6) % 7) := by
    rw [dayNumber_setDateJs h]
    ring
  unfold getWeekRangeEndingOn weekStartMonday isSunday
  dsimp only
  rw [dayNumber_setDateJs hs]
  rw [e1]
  unfold getDay at *
  simp only [beq_iff_eq]
  omega

/-- C3 witness: the amended statement applied at the Sunday 2023-12-31. -/
theorem c3_witness :
    dayNumber (getWeekRangeEndingOn ⟨2023, 12, 31⟩).2 -
        dayNumber (getWeekRangeEndingOn ⟨2023, 12, 31⟩).1 + 1 = 7
    ∧ (isSunday ⟨2023, 12, 31⟩ = true ↔
        dayNumber ⟨2023, 12, 31⟩ - dayNumber (weekStartMonday ⟨2023, 12, 31⟩) + 1 = 7) :=
  ⟨(c3_weekly_window ⟨2023, 12, 31⟩ (by decide)).2.2.1,
   (c3_weekly_window ⟨2023, 12, 31⟩ (by decide)).2.2.2.2.2.2⟩

/-- C6: for every valid date, `isMonthEnd` (the `new Date(y, m + 1, 0)`
rollover computation, identical in both scripts) holds exactly when the
day-of-month equals the number of days of the date's month, leap years
included. -/
theorem c6_month_boundary (x : CDate) (h : x.Valid) :
    isMonthEnd x = true ↔ x.day = daysInMonth x.year x.month :=
  isMonthEnd_iff h

/-- C6 witness: the boundary test at Feb 29 of a leap year, together with
directly evaluated month-end checks for a leap-year February, a non-leap
February, a 30-day month and a 31-day month. -/
theorem c6_witness :
    (isMonthEnd ⟨2024, 2, 29⟩ = true ↔ (29 : Nat) = daysInMonth 2024 2)
    ∧ isMonthEnd ⟨2024, 2, 29⟩ = true
    ∧ isMonthEnd ⟨2023, 2, 28⟩ = true
    ∧ isMonthEnd ⟨2024, 2, 28⟩ = false
    ∧ isMonthEnd ⟨2023, 4, 30⟩ = true
    ∧ isMonthEnd ⟨2023, 1, 31⟩ = true :=
  ⟨c6_month_boundary ⟨2024, 2, 29⟩ (by decide), by decide, by decide, by decide,
   by decide, by decide⟩

/-- C9: in `"api"` mode, `sendReport` marks the period sent exactly on
transport success; a transport failure is surfaced as the rejection value
and leaves the ledger untouched, so a retry stays possible.  In the
user-mediated `"mailto"` mode, it opens the compose action and marks the
period sent unconditionally, whatever the (unobservable) outcome. -/
theorem c9_sent_marking (recipients : List String) (ts : String) (sent : Ledger)
    (r : Report) (e : String) (tr : Except String Unit) (hts : ts ≠ "") :
    ((sendReportJs "api" recipients (.ok ()) ts sent r).ledger =
        markSent sent r.type r.periodId ts
      ∧ alreadySent (sendReportJs "api" recipients (.ok ()) ts sent r).ledger
          r.type r.periodId = true
      ∧ (sendReportJs "api" recipients (.ok ()) ts sent r).result = .ok ())
    ∧ ((sendReportJs "api" recipients (.error e) ts sent r).ledger = sent
      ∧ (sendReportJs "api" recipients (.error e) ts sent r).result = .error e)
    ∧ ((sendReportJs "mailto" recipients tr ts sent r).ledger =
        markSent sent r.type r.periodId ts
      ∧ (sendReportJs "mailto" recipients tr ts sent r).actions =
          [.openMailto recipients r.subject r.body]
      ∧ alreadySent (sendReportJs "mailto" recipients tr ts sent r).ledger
          r.type r.periodId = true) := by
  have hmark : ∀ sent2 : Ledger, sent2 = markSent sent r.type r.periodId ts →
      alreadySent sent2 r.type r.periodId = true := by
    intro sent2 h2
    rw [h2, alreadySent_markSent_self]
    simpa using hts
  exact ⟨⟨rfl, hmark _ rfl, rfl⟩, ⟨rfl, rfl⟩, rfl, rfl, hmark _ rfl⟩

/-- C9 witness: the theorem applied with a concrete report, ledger and
timestamp. -/
theorem c9_witness :
    (sendReportJs "api" ["your@email.com"] (.error "API failed: 500")
        "2024-01-07T10:00:00.000Z" [] ⟨"weekly", "p", "s", "b"⟩).ledger = [] :=
  (c9_sent_marking ["your@email.com"] "2024-01-07T10:00:00.000Z" []
      ⟨"weekly", "p", "s", "b"⟩ "API failed: 500" (.ok ()) (by decide)).2.1.1

/-- C10: `saveRatingForToday(k, v)` changes only today's entry — it sets
today's `k` score and today's `_updatedAt` timestamp — and leaves every
other date's entry, and every other key of today's entry, unchanged. -/
theorem c10_save_frame (store : Store) (todayISO ts k : String) (v : JsVal)
    (hk : k ≠ "_updatedAt") :
    (∀ d, d ≠ todayISO →
        olookup (saveRatingForToday store todayISO ts k v) d = olookup store d)
    ∧ olookup ((olookup (saveRatingForToday store todayISO ts k v) todayISO).getD []) k
        = some v
    ∧ olookup ((olookup (saveRatingForToday store todayISO ts k v) todayISO).getD [])
        "_updatedAt" = some (.str ts)
    ∧ (∀ kk, kk ≠ k → kk ≠ "_updatedAt" →
        olookup ((olookup (saveRatingForToday store todayISO ts k v) todayISO).getD []) kk
          = olookup ((olookup store todayISO).getD []) kk) := by
  unfold saveRatingForToday
  refine ⟨?_, ?_, ?_, ?_⟩
  · intro d hd
    exact olookup_oset_ne _ _ _ _ hd
  · rw [olookup_oset_self]
    simp only [Option.getD_some]
    rw [olookup_oset_ne _ _ _ _ hk, olookup_oset_self]
  · rw [olookup_oset_self]
    simp only [Option.getD_some]
    rw [olookup_oset_self]
  · intro kk hk1 hk2
    rw [olookup_oset_self]
    simp only [Option.getD_some]
    rw [olookup_oset_ne _ _ _ _ hk2, olookup_oset_ne _ _ _ _ hk1]

/-- C10 witness: the frame property at a concrete store. -/
theorem c10_witness :
    olookup ((olookup (saveRatingForToday
        [("2024-01-01", [("interest", JsVal.num 2)])]
        "2024-01-02" "2024-01-02T08:00:00.000Z" "consistency" (JsVal.num 5))
        "2024-01-02").getD []) "consistency" = some (JsVal.num 5)
    ∧ olookup (saveRatingForToday
        [("2024-01-01", [("interest", JsVal.num 2)])]
        "2024-01-02" "2024-01-02T08:00:00.000Z" "consistency" (JsVal.num 5))
        "2024-01-01" = some [("interest", JsVal.num 2)] := by
  constructor
  · exact (c10_save_frame [("2024-01-01", [("interest", JsVal.num 2)])]
      "2024-01-02" "2024-01-02T08:00:00.000Z" "consistency" (JsVal.num 5)
      (by decide)).2.1
  · rw [(c10_save_frame [("2024-01-01", [("interest", JsVal.num 2)])]
      "2024-01-02" "2024-01-02T08:00:00.000Z" "consistency" (JsVal.num 5)
      (by decide)).1 "2024-01-01" (by decide)]
    decide

/-- C1: on a `now` that is simultaneously a Sunday, the last day of its
month and December 31, `getDueReports` against an empty sent ledger
returns exactly the three candidates in the order weekly, monthly, yearly
(pairwise distinct); and once all three `(type, periodId)` pairs are
marked sent, `getDueReports` on the same `now` returns the empty list. -/
theorem c1_exactly_once (cats : List Category) (store : Store) (now : CDate)
    (hsun : isSunday now = true) (hme : isMonthEnd now = true)
    (hye : isYearEnd now = true) (t1 t2 t3 : String)
    (ht1 : t1 ≠ "") (ht2 : t2 ≠ "") (ht3 : t3 ≠ "") :
    getDueReports cats store [] now =
      [buildWeeklyReport cats store now, buildMonthlyReport cats store now,
       buildYearlyReport cats store now]
    ∧ buildWeeklyReport cats store now ≠ buildMonthlyReport cats store now
    ∧ buildWeeklyReport cats store now ≠ buildYearlyReport cats store now
    ∧ buildMonthlyReport cats store now ≠ buildYearlyReport cats store now
    ∧ getDueReports cats store
        (markSent (markSent (markSent [] "weekly"
              (buildWeeklyReport cats store now).periodId t1)
            "monthly" (buildMonthlyReport cats store now).periodId t2)
          "yearly" (buildYearlyReport cats store now).periodId t3) now = [] := by
  have tw : (buildWeeklyReport cats store now).type = "weekly" := rfl
  have tm : (buildMonthlyReport cats store now).type = "monthly" := rfl
  have tyr : (buildYearlyReport cats store now).type = "yearly" := rfl
  have hnil : ∀ ty pid, alreadySent [] ty pid = false := fun _ _ => rfl
  have hwm : ("weekly" : String) ≠ "monthly" := by decide
  have hwy : ("weekly" : String) ≠ "yearly" := by decide
  have hmy : ("monthly" : String) ≠ "yearly" := by decide
  have hmw : ("monthly" : String) ≠ "weekly" := by decide
  refine ⟨?_, ?_, ?_, ?_, ?_⟩
  · simp [getDueReports, hsun, hme, hye, hnil, List.filter]
  · intro heq
    have hty := congrArg Report.type heq
    rw [tw, tm] at hty
    exact hwm hty
  · intro heq
    have hty := congrArg Report.type heq
    rw [tw, tyr] at hty
    exact hwy hty
  · intro heq
    have hty := congrArg Report.type heq
    rw [tm, tyr] at hty
    exact hmy hty
  · have hw : alreadySent
        (markSent (markSent (markSent [] "weekly"
              (buildWeeklyReport cats store now).periodId t1)
            "monthly" (buildMonthlyReport cats store now).periodId t2)
          "yearly" (buildYearlyReport cats store now).periodId t3)
        "weekly" (buildWeeklyReport cats store now).periodId = true := by
      rw [alreadySent_markSent_ne _ _ _ _ _ _ (Or.inl hwy),
          alreadySent_markSent_ne _ _ _ _ _ _ (Or.inl hwm),
          alreadySent_markSent_self]
      simpa using ht1
    have hm : alreadySent
        (markSent (markSent (markSent [] "weekly"
              (buildWeeklyReport cats store now).periodId t1)
            "monthly" (buildMonthlyReport cats store now).periodId t2)
          "yearly" (buildYearlyReport cats store now).periodId t3)
        "monthly" (buildMonthlyReport cats store now).periodId = true := by
      rw [alreadySent_markSent_ne _ _ _ _ _ _ (Or.inl hmy),
          alreadySent_markSent_self]
      simpa using ht2
    have hy : alreadySent
        (markSent (markSent (markSent [] "weekly"
              (buildWeeklyReport cats store now).periodId t1)
            "monthly" (buildMonthlyReport cats store now).periodId t2)
          "yearly" (buildYearlyReport cats store now).periodId t3)
        "yearly" (buildYearlyReport cats store now).periodId = true := by
      rw [alreadySent_markSent_self]
      simpa using ht3
    simp [getDueReports, hsun, hme, hye, List.filter, tw, tm, tyr, hw, hm, hy]

/-- C1 witness: 2023-12-31 was a Sunday, a month end and Dec 31; against
the empty ledger the three candidates are due, in order. -/
theorem c1_witness :
    getDueReports CATEGORIES [] [] ⟨2023, 12, 31⟩ =
      [buildWeeklyReport CATEGORIES [] ⟨2023, 12, 31⟩,
       buildMonthlyReport CATEGORIES [] ⟨2023, 12, 31⟩,
       buildYearlyReport CATEGORIES [] ⟨2023, 12, 31⟩] :=
  (c1_exactly_once CATEGORIES [] ⟨2023, 12, 31⟩ (by decide) (by decide) (by decide)
    "2023-12-31T20:00:00.000Z" "2023-12-31T20:00:00.000Z" "2023-12-31T20:00:00.000Z"
    (by decide) (by decide) (by decide)).1

/-- C4: on the ratings `{2024-01-01: {a:3}, 2024-01-02: {a:5, b:2}}` over
the window 2024-01-01..2024-01-02 with categories `a`, `b`, the
per-category-independent policy (`calcAverages`) yields `a = 4`, `b = 2`,
the all-categories-required policy (`computeAveragesForEntries`) yields
`a = 5`, `b = 2`, and the two disagree on `a`. -/
theorem c4_policy_divergence :
    (calcAverages [⟨"a", "a"⟩, ⟨"b", "b"⟩]
        (getRatingsInRange
          [("2024-01-01", [("a", JsVal.num 3)]),
           ("2024-01-02", [("a", JsVal.num 5), ("b", JsVal.num 2)])]
          ⟨2024, 1, 1⟩ ⟨2024, 1, 2⟩)).avg = [("a", some 4), ("b", some 2)]
    ∧ (computeAveragesForEntries [⟨"a", "a"⟩, ⟨"b", "b"⟩]
        (listEntriesInRange
          [("2024-01-01", [("a", JsVal.num 3)]),
           ("2024-01-02", [("a", JsVal.num 5), ("b", JsVal.num 2)])]
          ⟨2024, 1, 1⟩ ⟨2024, 1, 2⟩)).perCategory = [("a", some 5), ("b", some 2)]
    ∧ olookup (calcAverages [⟨"a", "a"⟩, ⟨"b", "b"⟩]
        (getRatingsInRange
          [("2024-01-01", [("a", JsVal.num 3)]),
           ("2024-01-02", [("a", JsVal.num 5), ("b", JsVal.num 2)])]
          ⟨2024, 1, 1⟩ ⟨2024, 1, 2⟩)).avg "a"
      ≠ olookup (computeAveragesForEntries [⟨"a", "a"⟩, ⟨"b", "b"⟩]
        (listEntriesInRange
          [("2024-01-01", [("a", JsVal.num 3)]),
           ("2024-01-02", [("a", JsVal.num 5), ("b", JsVal.num 2)])]
          ⟨2024, 1, 1⟩ ⟨2024, 1, 2⟩)).perCategory "a" := by
  refine ⟨by decide, by decide, by decide⟩

/-- C5: with no complete day (here: an empty entry list) every per-category
average is `null`, yet `overall` is `0`, not the `null` "no data" marker:
`mean` coerces each `null` with `Number(null) = 0` and counts it.  The
last conjunct isolates the defect: the mean over `[4, null]` is `2`, not
the `4` the excluded-nulls reading requires. -/
theorem c5_overall_zero :
    (computeAveragesForEntries CATEGORIES []).perCategory =
      [("consistency", none), ("discipline", none), ("determination", none),
       ("interest", none)]
    ∧ (computeAveragesForEntries CATEGORIES []).overall = some 0
    ∧ ¬ (computeAveragesForEntries CATEGORIES []).overall = none
    ∧ mean [JsVal.num 4, JsVal.null] = some 2 := by
  refine ⟨by decide, by decide, by decide, by decide⟩

/-- C7 counterexample: over the 3-day window 2024-01-01..2024-01-03 with a
single stored day, `listEntriesInRange` returns 1 row, not the
`(end - start).days + 1 = 3` rows the claim requires of the range read. -/
theorem c7_counterexample :
    (listEntriesInRange [("2024-01-02", [("a", JsVal.num 3)])]
        ⟨2024, 1, 1⟩ ⟨2024, 1, 3⟩).length = 1
    ∧ (dayNumber ⟨2024, 1, 3⟩ - dayNumber ⟨2024, 1, 1⟩ + 1).toNat = 3
    ∧ ¬ (listEntriesInRange [("2024-01-02", [("a", JsVal.num 3)])]
        ⟨2024, 1, 1⟩ ⟨2024, 1, 3⟩).length = 3 := by
  refine ⟨by decide, by decide, by decide⟩

/-- C8 counterexample: `clampRating` does not treat the out-of-range score
`5.4` as absent — it rounds it to `5` and accepts it, and
`computeAveragesForEntries` then counts the day and accumulates the raw
`5.4`, unlike the genuinely-absent case. -/
theorem c8_counterexample :
    clampRating (JsVal.num (27/5)) = some 5
    ∧ ¬ clampRating (JsVal.num (27/5)) = none
    ∧ (5 : ℚ) < 27/5
    ∧ (computeAveragesForEntries [⟨"a", "a"⟩]
        [⟨"2024-01-01", [("a", JsVal.num (27/5))]⟩]).perCategory
        = [("a", some (27/5))]
    ∧ (computeAveragesForEntries [⟨"a", "a"⟩]
        [⟨"2024-01-01", []⟩]).perCategory = [("a", none)] := by
  refine ⟨by decide, by decide, by decide, by decide, by decide⟩

/-- C8 (amended): `calcAverages` (part_000) treats a non-number-typed or
out-of-`[1,5]` stored score exactly as if it were absent — dropping every
invalid value from the rows leaves its result unchanged — and a category
with zero valid observations yields `null`; `clampRating` (part_001),
however, `Number`-converts and *rounds* first, accepting exactly the
values whose rounding lands in `1..5` (so e.g. `5.4` is kept as `5`). -/
theorem c8_invalid_scores :
    (∀ (cats : List Category) (rows : List RRow),
        (∀ r ∈ rows, (r.values.map Prod.fst).Nodup) →
        calcAverages cats (rows.map sanitizeRow) = calcAverages cats rows)
    ∧ (∀ q : ℚ, clampRating (JsVal.num q) =
        if 1 ≤ jsRound q ∧ jsRound q ≤ 5 then some (jsRound q) else none)
    ∧ (calcAverages [⟨"a", "a"⟩] [⟨"2024-01-01", [("a", JsVal.num 99)]⟩]).avg
        = [("a", none)] := by
  refine ⟨calcAverages_sanitize, ?_, by decide⟩
  intro q
  unfold clampRating jsNumber
  dsimp only
  split_ifs with h1 h2 <;> first | rfl | (exfalso; omega)

/-- C8 witness: the sanitising invariance applied to a concrete row with an
out-of-range score and all duplicate-free keys. -/
theorem c8_witness :
    calcAverages [⟨"a", "a"⟩]
        ([⟨"2024-01-01", [("a", JsVal.num 9), ("b", JsVal.num 3)]⟩].map sanitizeRow)
      = calcAverages [⟨"a", "a"⟩]
        [⟨"2024-01-01", [("a", JsVal.num 9), ("b", JsVal.num 3)]⟩] :=
  c8_invalid_scores.1 [⟨"a", "a"⟩] _ (by decide)

/-- C7 (amended): `getRatingsInRange` (part_000) satisfies the claim: for
`startDate ≤ endDate` it returns exactly `(endDate - startDate).days + 1`
rows, the `i`-th row being calendar date `startDate + i` (hence ascending,
one row per date of the inclusive range) with `values` the stored record
or `{}` when absent.  `listEntriesInRange` (part_001), however, returns
only the *stored* dates of the range: on the 3-day window with one stored
day it returns that single row, not 3 rows. -/
theorem c7_range_read (store : Store) (s e : CDate) (hs : s.Valid) (he : e.Valid)
    (hse : dayNumber s ≤ dayNumber e) :
    (getRatingsInRange store s e).length = (dayNumber e - dayNumber s + 1).toNat
    ∧ (∀ (i : Nat) (hi : i < (getRatingsInRange store s e).length),
        ((getRatingsInRange store s e).get ⟨i, hi⟩).date = isoLocal (succD^[i] s)
        ∧ ((getRatingsInRange store s e).get ⟨i, hi⟩).values =
            (olookup store (isoLocal (succD^[i] s))).getD []
        ∧ dayNumber (succD^[i] s) = dayNumber s + i)
    ∧ listEntriesInRange [("2024-01-02", [("a", JsVal.num 3)])] ⟨2024, 1, 1⟩ ⟨2024, 1, 3⟩
        = [⟨"2024-01-02", [("a", JsVal.num 3)]⟩] := by
  refine ⟨?_, ?_, by decide⟩
  · unfold getRatingsInRange
    rw [List.length_map, dateListFrom_length]
  · intro i hi
    have hi2 : i < (dateListFrom s (dayNumber e - dayNumber s + 1).toNat).length := by
      unfold getRatingsInRange at hi
      rw [List.length_map] at hi
      exact hi
    have hd := dateListFrom_get s (dayNumber e - dayNumber s + 1).toNat i hi2
    rw [List.get_eq_getElem] at hd
    have hrow : (getRatingsInRange store s e).get ⟨i, hi⟩ =
        (⟨isoLocal (succD^[i] s),
          (olookup store (isoLocal (succD^[i] s))).getD []⟩ : RRow) := by
      unfold getRatingsInRange
      rw [List.get_eq_getElem]
      rw [List.getElem_map]
      rw [hd]
    rw [hrow]
    exact ⟨rfl, rfl, dayNumber_succD_iter hs i⟩

/-- C7 witness: the amended range-read property at the 3-day window
2024-01-01..2024-01-03 with one stored day: 3 rows, 2 of them with empty
`values`. -/
theorem c7_witness :
    (getRatingsInRange [("2024-01-02", [("a", JsVal.num 3)])]
        ⟨2024, 1, 1⟩ ⟨2024, 1, 3⟩).length
      = (dayNumber ⟨2024, 1, 3⟩ - dayNumber ⟨2024, 1, 1⟩ + 1).toNat
    ∧ (dayNumber ⟨2024, 1, 3⟩ - dayNumber ⟨2024, 1, 1⟩ + 1).toNat = 3
    ∧ (List.filter (fun r => r.values == [])
        (getRatingsInRange [("2024-01-02", [("a", JsVal.num 3)])]
          ⟨2024, 1, 1⟩ ⟨2024, 1, 3⟩)).length = 2 :=
  ⟨(c7_range_read [("2024-01-02", [("a", JsVal.num 3)])] ⟨2024, 1, 1⟩ ⟨2024, 1, 3⟩
      (by decide) (by decide) (by decide)).1, by decide, by decide⟩

end
